import Mathlib

/-!
Shallow embedding of the Saviour mobile application's screen logic:
the chat screen's formatting helpers, read-receipt bookkeeping, role gate
and city-scoped message query (src/unnamed/part_000), the employee
dashboard's date filter (src/unnamed/part_001), and the profile screen's
notifications toggle and blocked-users management (src/app/(tabs)/profile.tsx).
-/

namespace Saviour

/-! ### Formatting helpers (src/unnamed/part_000, lines 477-489) -/

/-- Embedding of the call `(x).toFixed(1)` as it occurs in formatFileSize,
applied to the exact rational num/den (den > 0).  ECMA-262
Number.prototype.toFixed picks the integer n for which n / 10 - x is closest
to zero, the larger n on a tie; for nonnegative x that is floor(10 * x + 1/2),
computed here in Nat arithmetic as (20 * num + den) / (2 * den).  The
quotients bytes / 1024 and bytes / 1048576 are dyadic rationals, hence exact
in JavaScript's binary floating point for all realistic file sizes. -/
def toFixed1 (num den : Nat) : String :=
  let n := (20 * num + den) / (2 * den)
  toString (n / 10) ++ "." ++ toString (n % 10)

/-- Embedding of formatFileSize (src/unnamed/part_000, lines 477-482).
The JavaScript guard `if (!bytes)` is true exactly when the argument is
absent (undefined) or equal to 0, so both cases return "Unknown size". -/
def formatFileSize (bytes : Option Nat) : String :=
  match bytes with
  | none => "Unknown size"
  | some b =>
    if b = 0 then ("Unknown size")
    else if b < 1024 then toString b ++ " B"
    else if b < 1048576 then toFixed1 b 1024 ++ " KB"
    else toFixed1 b 1048576 ++ " MB"

/-- JavaScript Math.trunc / the truncation implicit in the % operator:
rounding toward zero. -/
def jsTrunc (x : ℚ) : ℤ :=
  if 0 ≤ x then ⌊x⌋ else ⌈x⌉

/-- JavaScript remainder a % b (for b > 0): a - b * trunc(a / b). -/
def jsMod (a b : ℚ) : ℚ :=
  a - b * (jsTrunc (a / b) : ℚ)

/-- Embedding of formatDuration (src/unnamed/part_000, lines 484-489).
The guard `if (!seconds)` is true for an absent argument and for 0;
mins is Math.floor(seconds / 60), secs is Math.floor(seconds % 60),
and the seconds part is prefixed with "0" when below 10. -/
def formatDuration (seconds : Option ℚ) : String :=
  match seconds with
  | none => "0:00"
  | some s =>
    if s = 0 then ("0:00")
    else
      let mins : ℤ := ⌊s / 60⌋
      let secs : ℤ := ⌊jsMod s 60⌋
      toString mins ++ ":" ++ (if secs < 10 then ("0") else ("")) ++ toString secs

/-! ### Spec-side readings of the formatting claims -/

/-- The spec's reading of "the count divided by den rendered to one decimal
place": round (nearest, halves up, via Mathlib round on rationals) the value
num / den to one decimal digit and print integer part, dot, single digit. -/
def oneDecimalStr (num den : Nat) : String :=
  let n : ℤ := round ((num : ℚ) * 10 / (den : ℚ))
  toString (n / 10) ++ "." ++ toString (n % 10)

/-- The spec's reading of C7: the whole number of minutes in the duration, a
colon, and the remaining whole seconds zero-padded to two digits, all derived
from the total whole seconds floor(s). -/
def minutesColonSeconds (s : ℚ) : String :=
  let n : ℤ := ⌊s⌋
  toString (n / 60) ++ ":" ++ (if n % 60 < 10 then ("0") else ("")) ++ toString (n % 60)

/-! ### Arithmetic bridge lemmas -/

theorem intCast_toString (k : Nat) : toString ((k : ℤ)) = toString k := rfl

theorem toFixed1_eq_oneDecimalStr (num den : Nat) (hden : 0 < den) :
    toFixed1 num den = oneDecimalStr num den := by
  have hq : (0 : ℚ) < (den : ℚ) := by exact_mod_cast hden
  have hround : round ((num : ℚ) * 10 / (den : ℚ))
      = (((20 * num + den) / (2 * den) : ℕ) : ℤ) := by
    rw [round_eq]
    have hfrac : (num : ℚ) * 10 / (den : ℚ) + 1 / 2
        = ((20 * num + den : ℕ) : ℚ) / ((2 * den : ℕ) : ℚ) := by
      push_cast
      field_simp
      ring
    rw [hfrac, Rat.floor_natCast_div_natCast, Int.natCast_div]
  simp only [toFixed1, oneDecimalStr, hround]
  rfl

theorem floor_div_int_cast (s : ℚ) (n : ℕ) (hn : 0 < n) (hs : 0 ≤ s) :
    ⌊s / (n : ℚ)⌋ = ⌊s⌋ / (n : ℤ) := by
  have hdiv : (0 : ℚ) ≤ s / (n : ℚ) := by positivity
  rw [← Int.natCast_floor_eq_floor hs, ← Int.natCast_floor_eq_floor hdiv]
  have hfl : ⌊s / (n : ℚ)⌋₊ = ⌊s⌋₊ / n := by
    have := Nat.floor_div_nat s n
    simpa using this
  rw [hfl, Int.natCast_div]

/-- C6: formatFileSize renders a positive byte count as raw bytes below 1024,
as a one-decimal-place KB value below 1048576, and otherwise as a
one-decimal-place MB value; an absent byte count yields "Unknown size". -/
theorem formatFileSize_spec :
    formatFileSize none = "Unknown size" ∧
    ∀ b : Nat, 0 < b →
      (b < 1024 → formatFileSize (some b) = toString b ++ " B") ∧
      (1024 ≤ b → b < 1048576 →
        formatFileSize (some b) = oneDecimalStr b 1024 ++ " KB") ∧
      (1048576 ≤ b → formatFileSize (some b) = oneDecimalStr b 1048576 ++ " MB") := by
  refine ⟨rfl, ?_⟩
  intro b hb
  refine ⟨?_, ?_, ?_⟩
  · intro h1
    simp [formatFileSize, Nat.pos_iff_ne_zero.mp hb, h1]
  · intro h1 h2
    have hnlt : ¬ b < 1024 := by omega
    simp [formatFileSize, Nat.pos_iff_ne_zero.mp hb, hnlt, h2,
      toFixed1_eq_oneDecimalStr b 1024 (by omega)]
  · intro h1
    have hnlt : ¬ b < 1024 := by omega
    have hnlt2 : ¬ b < 1048576 := by omega
    simp [formatFileSize, Nat.pos_iff_ne_zero.mp hb, hnlt, hnlt2,
      toFixed1_eq_oneDecimalStr b 1048576 (by omega)]

theorem formatFileSize_spec_witness :
    (0 < 2048 ∧ 1024 ≤ 2048 ∧ 2048 < 1048576) ∧
    formatFileSize (some 2048) = oneDecimalStr 2048 1024 ++ " KB" :=
  ⟨⟨by decide, by decide, by decide⟩,
    ((formatFileSize_spec.2 2048 (by decide)).2.1 (by decide) (by decide))⟩

/-- C10: a byte count of exactly 0 is rendered the same as an absent byte
count: both produce "Unknown size", not "0 B". -/
theorem formatFileSize_zero_as_absent :
    formatFileSize (some 0) = "Unknown size" ∧
    formatFileSize (some 0) = formatFileSize none ∧
    formatFileSize (some 0) ≠ "0 B" := by
  refine ⟨rfl, rfl, by decide⟩

/-- C7: for a positive duration, formatDuration prints whole minutes, a
colon, and the remaining whole seconds zero-padded to two digits; an absent
or zero duration prints "0:00". -/
theorem formatDuration_spec :
    formatDuration none = "0:00" ∧
    formatDuration (some 0) = "0:00" ∧
    ∀ s : ℚ, 0 < s → formatDuration (some s) = minutesColonSeconds s := by
  refine ⟨rfl, by simp [formatDuration], ?_⟩
  intro s hs
  have hs0 : s ≠ 0 := ne_of_gt hs
  have hsle : (0 : ℚ) ≤ s := le_of_lt hs
  have hmins : ⌊s / 60⌋ = ⌊s⌋ / 60 := by
    have := floor_div_int_cast s 60 (by omega) hsle
    simpa using this
  have hdivnn : (0 : ℚ) ≤ s / 60 := by positivity
  have htrunc : jsTrunc (s / 60) = ⌊s / 60⌋ := by
    simp [jsTrunc, hdivnn]
  have hsecs : ⌊jsMod s 60⌋ = ⌊s⌋ % 60 := by
    rw [jsMod, htrunc, hmins]
    have hcast : (60 : ℚ) * ((⌊s⌋ / 60 : ℤ) : ℚ) = (((60 : ℤ) * (⌊s⌋ / 60) : ℤ) : ℚ) := by
      push_cast
      ring
    rw [hcast, Int.floor_sub_int]
    rw [Int.emod_def]
  simp only [formatDuration, minutesColonSeconds, hs0, if_false]
  rw [hmins, hsecs]

theorem formatDuration_spec_witness :
    ((0 : ℚ) < 125) ∧ formatDuration (some 125) = minutesColonSeconds 125 :=
  ⟨by norm_num, formatDuration_spec.2.2 125 (by norm_num)⟩

/-! ### Chat messages and read receipts (src/unnamed/part_000, lines 51-181) -/

inductive MessageType
  | text
  | image
  | video
  | document
  | audio
  | location
  deriving DecidableEq

structure MessageMeta where
  uri : Option String := none
  duration : Option ℚ := none
  latitude : Option ℚ := none
  longitude : Option ℚ := none
  fileName : Option String := none
  fileSize : Option Nat := none
  deriving DecidableEq

structure Message where
  id : String
  senderId : String
  senderName : String
  senderEmail : String
  senderCity : String
  city : String
  content : String
  type : MessageType
  timestamp : Option ℤ
  readBy : List String
  metadata : MessageMeta
  deriving DecidableEq

/-- A message is unread for uid when its sender is someone else and its
readBy array does not include uid (src/unnamed/part_000, lines 165-167:
msg.senderId !== user.uid && !msg.readBy.includes(user.uid)). -/
def isUnread (uid : String) (m : Message) : Bool :=
  m.senderId != uid && !(m.readBy.contains uid)

def unreadFor (uid : String) (msgs : List Message) : List Message :=
  msgs.filter (isUnread uid)

/-- The batch of updateDoc patches issued by markMessagesAsRead
(src/unnamed/part_000, lines 169-179): one (document id, new readBy array)
pair per unread message, appending uid to that message's readBy array. -/
def markPatches (uid : String) (msgs : List Message) : List (String × List String) :=
  (unreadFor uid msgs).map (fun m => (m.id, m.readBy ++ [uid]))

/-- The effect of one markMessagesAsRead pass on a message: the updateDoc
patch overwrites an unread message's readBy field with readBy ++ [uid] and
leaves every other message untouched. -/
def applyRead (uid : String) (m : Message) : Message :=
  if isUnread uid m then { m with readBy := m.readBy ++ [uid] } else m

def markStep (uid : String) (msgs : List Message) : List Message :=
  msgs.map (applyRead uid)

theorem isUnread_iff (uid : String) (m : Message) :
    isUnread uid m = true ↔ (m.senderId ≠ uid ∧ uid ∉ m.readBy) := by
  simp [isUnread, List.contains, List.elem_eq_mem, bne_iff_ne]

/-- C2: the markMessagesAsRead batch patches exactly the messages from other
senders whose readBy array does not yet include the current uid, appending
the uid; a message sent by the current user, or already listing the uid,
gets no patch. -/
theorem markPatches_exactly_unread (uid : String) (msgs : List Message)
    (hids : (msgs.map Message.id).Nodup) :
    (∀ m ∈ msgs, m.senderId ≠ uid → uid ∉ m.readBy →
      (m.id, m.readBy ++ [uid]) ∈ markPatches uid msgs) ∧
    (∀ m ∈ msgs, (m.senderId = uid ∨ uid ∈ m.readBy) →
      ∀ r, (m.id, r) ∉ markPatches uid msgs) ∧
    (∀ p ∈ markPatches uid msgs, ∃ m, m ∈ msgs ∧ m.senderId ≠ uid ∧
      uid ∉ m.readBy ∧ p = (m.id, m.readBy ++ [uid])) := by
  refine ⟨?_, ?_, ?_⟩
  · intro m hm h1 h2
    apply List.mem_map.mpr
    refine ⟨m, ?_, rfl⟩
    exact List.mem_filter.mpr ⟨hm, (isUnread_iff uid m).mpr ⟨h1, h2⟩⟩
  · intro m hm hor r hmem
    obtain ⟨m2, hm2, heq⟩ := List.mem_map.mp hmem
    obtain ⟨hm2mem, hm2unread⟩ := List.mem_filter.mp hm2
    have hid : m2.id = m.id := congrArg Prod.fst heq
    have hsame : m2 = m :=
      List.inj_on_of_nodup_map hids hm2mem hm hid
    rw [hsame] at hm2unread
    obtain ⟨hne, hnotin⟩ := (isUnread_iff uid m).mp hm2unread
    rcases hor with h | h
    · exact hne h
    · exact hnotin h
  · intro p hp
    obtain ⟨m2, hm2, heq⟩ := List.mem_map.mp hp
    obtain ⟨hm2mem, hm2unread⟩ := List.mem_filter.mp hm2
    obtain ⟨hne, hnotin⟩ := (isUnread_iff uid m2).mp hm2unread
    exact ⟨m2, hm2mem, hne, hnotin, heq.symm⟩

def msgFromBob : Message :=
  { id := "m1", senderId := "bob", senderName := "Bob", senderEmail := "",
    senderCity := "", city := "Delhi", content := "hi", type := .text,
    timestamp := some 5, readBy := ["bob"], metadata := {} }

theorem markPatches_exactly_unread_witness :
    ([msgFromBob].map Message.id).Nodup ∧
    ("m1", ["bob", "alice"]) ∈ markPatches ("alice") [msgFromBob] :=
  ⟨by decide,
    (markPatches_exactly_unread ("alice") [msgFromBob] (by decide)).1
      msgFromBob (by decide) (by decide) (by decide)⟩

theorem applyRead_notin (uid : String) (m : Message) (h : uid ∈ m.readBy) :
    applyRead uid m = m := by
  have : isUnread uid m = false := by
    rcases Bool.eq_false_or_eq_true (isUnread uid m) with ht | hf
    · exact absurd ((isUnread_iff uid m).mp ht).2 (not_not_intro h)
    · exact hf
  simp [applyRead, this]

theorem applyRead_idem (uid : String) (m : Message) :
    applyRead uid (applyRead uid m) = applyRead uid m := by
  cases h : isUnread uid m with
  | false => simp [applyRead, h]
  | true =>
    have hafter : isUnread uid { m with readBy := m.readBy ++ [uid] } = false := by
      simp [isUnread, List.contains, List.elem_eq_mem]
    simp [applyRead, h, hafter]

/-- C9: marking messages as read is idempotent (a second pass changes
nothing), adds the uid at most once to each readBy array (and not at all
when already present), and removes no existing entry. -/
theorem markStep_idem_monotone (uid : String) (msgs : List Message) :
    markStep uid (markStep uid msgs) = markStep uid msgs ∧
    (∀ m ∈ msgs, uid ∈ m.readBy → applyRead uid m = m) ∧
    (∀ m ∈ msgs, (applyRead uid m).readBy.count uid ≤ m.readBy.count uid + 1) ∧
    (∀ m ∈ msgs, ∀ x ∈ m.readBy, x ∈ (applyRead uid m).readBy) := by
  refine ⟨?_, ?_, ?_, ?_⟩
  · simp only [markStep, List.map_map]
    have hcomp : (applyRead uid) ∘ (applyRead uid) = applyRead uid :=
      funext (applyRead_idem uid)
    rw [hcomp]
  · intro m _ h
    exact applyRead_notin uid m h
  · intro m _
    cases h : isUnread uid m with
    | false => simp [applyRead, h]
    | true => simp [applyRead, h, List.count_append]
  · intro m _ x hx
    cases h : isUnread uid m with
    | false => simpa [applyRead, h] using hx
    | true =>
      simp only [applyRead, h, if_true]
      exact List.mem_append_left _ hx

theorem markStep_idem_monotone_witness :
    (markStep ("alice") (markStep ("alice") [msgFromBob]) = markStep ("alice") [msgFromBob]) ∧
    ((applyRead ("alice") msgFromBob).readBy.count ("alice") ≤
      msgFromBob.readBy.count ("alice") + 1) ∧
    ("bob" ∈ (applyRead ("alice") msgFromBob).readBy) :=
  ⟨(markStep_idem_monotone ("alice") [msgFromBob]).1,
    (markStep_idem_monotone ("alice") [msgFromBob]).2.2.1 msgFromBob (by decide),
    (markStep_idem_monotone ("alice") [msgFromBob]).2.2.2 msgFromBob (by decide)
      "bob" (by decide)⟩

/-! ### City-scoped message subscription (src/unnamed/part_000, lines 117-160) -/

/-- A raw message document as stored in the backend collection: every field
other than the document id may be absent, matching the defaulting performed
by the snapshot handler (src/unnamed/part_000, lines 130-148). -/
structure MessageDoc where
  id : String
  senderId : Option String := none
  senderName : Option String := none
  senderEmail : Option String := none
  senderCity : Option String := none
  city : Option String := none
  content : Option String := none
  type : Option MessageType := none
  timestamp : Option ℤ := none
  readBy : Option (List String) := none
  metadata : Option MessageMeta := none
  deriving DecidableEq

/-- The snapshot handler's per-document mapping (src/unnamed/part_000,
lines 130-148): each absent field is defaulted (empty string, type text,
empty readBy array, empty metadata); an absent or non-Timestamp timestamp
becomes null. -/
def toMessage (d : MessageDoc) : Message :=
  { id := d.id
    senderId := d.senderId.getD ("")
    senderName := d.senderName.getD ("")
    senderEmail := d.senderEmail.getD ("")
    senderCity := d.senderCity.getD ("")
    city := d.city.getD ("")
    content := d.content.getD ("")
    type := d.type.getD .text
    timestamp := d.timestamp
    readBy := d.readBy.getD []
    metadata := d.metadata.getD {} }

/-- Ascending order on optional timestamps, null first (the backend sorts
null field values before all others). -/
def tsLe (a b : Option ℤ) : Bool :=
  match a, b with
  | none, _ => true
  | some _, none => false
  | some x, some y => x ≤ y

/-- Modelled from the spec: the backend's evaluation of the subscription
query built at src/unnamed/part_000 lines 122-126 — where('city', '==',
city) restricts the collection to documents whose city field equals the
selected city, and orderBy('timestamp', 'asc') arranges them in ascending
timestamp order.  The query evaluator itself is backend-as-a-service code
outside this repository ("listen for collection changes ordered by
timestamp"). -/
def runCityQuery (store : List MessageDoc) (c : String) : List MessageDoc :=
  (store.filter (fun d => d.city == some c)).mergeSort
    (fun a b => tsLe a.timestamp b.timestamp)

/-- The message list held in the chat screen's state after a snapshot of the
store: the query result mapped through the snapshot handler. -/
def chatMessages (store : List MessageDoc) (c : String) : List Message :=
  (runCityQuery store c).map toMessage

theorem tsLe_trans (a b c : Option ℤ) (h1 : tsLe a b = true) (h2 : tsLe b c = true) :
    tsLe a c = true := by
  cases a with
  | none => rfl
  | some x =>
    cases b with
    | none => exact absurd h1 (by simp [tsLe])
    | some y =>
      cases c with
      | none => exact absurd h2 (by simp [tsLe])
      | some z =>
        simp only [tsLe, decide_eq_true_eq] at h1 h2 ⊢
        omega

theorem tsLe_total (a b : Option ℤ) : (tsLe a b || tsLe b a) = true := by
  cases a with
  | none => rfl
  | some x =>
    cases b with
    | none => rfl
    | some y =>
      simp only [tsLe, Bool.or_eq_true, decide_eq_true_eq]
      omega

/-- C3: the chat screen's message list contains exactly the store's messages
whose city field equals the selected city (as a permutation of, hence the
same multiset as, the filtered store mapped through the snapshot handler),
and it is arranged in ascending timestamp order. -/
theorem chatMessages_city_sorted (store : List MessageDoc) (c : String) :
    (chatMessages store c).Perm
      ((store.filter (fun d => d.city == some c)).map toMessage) ∧
    (chatMessages store c).Pairwise
      (fun m1 m2 => tsLe m1.timestamp m2.timestamp = true) ∧
    (∀ m, m ∈ chatMessages store c ↔
      ∃ d, d ∈ store ∧ d.city = some c ∧ m = toMessage d) := by
  refine ⟨?_, ?_, ?_⟩
  · exact (List.mergeSort_perm _ _).map toMessage
  · have hs : ((store.filter (fun d => d.city == some c)).mergeSort
        (fun a b => tsLe a.timestamp b.timestamp)).Pairwise
        (fun a b => tsLe a.timestamp b.timestamp) := by
      apply List.sorted_mergeSort
      · intro a b d hab hbd
        exact tsLe_trans a.timestamp b.timestamp d.timestamp hab hbd
      · intro a b
        exact tsLe_total a.timestamp b.timestamp
    simp only [chatMessages, runCityQuery]
    apply List.pairwise_map.mpr
    exact hs.imp (fun {a b} h => h)
  · intro m
    constructor
    · intro hm
      obtain ⟨d, hd, heq⟩ := List.mem_map.mp hm
      have hd2 := List.mem_mergeSort.mp hd
      obtain ⟨hdmem, hdcity⟩ := List.mem_filter.mp hd2
      exact ⟨d, hdmem, by simpa using hdcity, heq.symm⟩
    · intro hex
      obtain ⟨d, hdmem, hdcity, heq⟩ := hex
      subst heq
      apply List.mem_map.mpr
      refine ⟨d, ?_, rfl⟩
      apply List.mem_mergeSort.mpr
      exact List.mem_filter.mpr ⟨hdmem, by simpa using hdcity⟩

/-! ### Role gate on the employee chat screen (src/unnamed/part_000, lines 91-114) -/

structure UserDoc where
  role : Option String := none
  name : Option String := none
  email : Option String := none
  city : Option String := none
  deriving DecidableEq

/-- Outcome of the auth effect: the user state that was set (if any),
whether the access-denied alert was shown, and whether the screen navigated
back. -/
structure GateOutcome where
  user : Option (String × UserDoc)
  deniedAlert : Bool
  navigatedBack : Bool
  deriving DecidableEq

/-- Embedding of the auth/role gate (src/unnamed/part_000, lines 91-114):
with no signed-in user the screen navigates back; with a signed-in user
whose profile document is missing it navigates back; with a profile whose
role is not employee it alerts and navigates back; only an employee profile
sets the user state. -/
def roleGate (auth : Option String) (profile : String → Option UserDoc) :
    GateOutcome :=
  match auth with
  | none => ⟨none, false, true⟩
  | some uid =>
    match profile uid with
    | none => ⟨none, false, true⟩
    | some d =>
      if d.role ≠ some ("employee") then ⟨none, true, true⟩
      else ⟨some (uid, d), false, false⟩

/-- JavaScript truthiness of the optional city route parameter: falsy when
absent or the empty string. -/
def cityTruthy : Option String → Bool
  | none => false
  | some s => s ≠ ""

/-- The message subscription effect (src/unnamed/part_000, lines 117-118)
runs only when both the city parameter and the user state are truthy:
if (!city || !user) return. -/
def subscriptionActive (city : Option String) (user : Option (String × UserDoc)) :
    Bool :=
  cityTruthy city && user.isSome

/-- C4: for an authenticated user whose profile document is missing or whose
role is not employee, the gate sets no user state and navigates back, and no
message subscription is established for any city; the same holds with no
authenticated user at all. -/
theorem roleGate_denies_nonemployee (auth : Option String)
    (profile : String → Option UserDoc)
    (h : ∀ uid d, auth = some uid → profile uid = some d →
      d.role ≠ some ("employee")) :
    (roleGate auth profile).user = none ∧
    (roleGate auth profile).navigatedBack = true ∧
    (∀ city, subscriptionActive city (roleGate auth profile).user = false) := by
  cases auth with
  | none => exact ⟨rfl, rfl, fun city => by simp [subscriptionActive, roleGate]⟩
  | some uid =>
    cases hp : profile uid with
    | none =>
      refine ⟨?_, ?_, ?_⟩ <;> simp [roleGate, hp, subscriptionActive]
    | some d =>
      have hrole : d.role ≠ some ("employee") := h uid d rfl hp
      refine ⟨?_, ?_, ?_⟩ <;> simp [roleGate, hp, hrole, subscriptionActive]

theorem roleGate_denies_nonemployee_witness :
    (roleGate (some ("u1")) (fun _ => some { role := some ("admin") })).user = none ∧
    (roleGate (some ("u1")) (fun _ => some { role := some ("admin") })).navigatedBack
      = true ∧
    (∀ city, subscriptionActive city
      (roleGate (some ("u1")) (fun _ => some { role := some ("admin") })).user
        = false) :=
  roleGate_denies_nonemployee (some ("u1")) (fun _ => some { role := some ("admin") })
    (by
      intro uid d h1 h2
      have hd : ({ role := some ("admin") } : UserDoc) = d := Option.some.inj h2
      rw [← hd]
      decide)

/-! ### Dashboard date filter (src/unnamed/part_001, lines 39-62 and 179-185) -/

/-- A calendar date as exposed by the JavaScript Date accessors used in
isToday: getFullYear, getMonth, getDate. -/
structure SimpleDate where
  year : ℤ
  month : ℕ
  day : ℕ
  deriving DecidableEq

/-- Embedding of isToday (src/unnamed/part_001, lines 55-62): same calendar
year, month and day as the current date. -/
def isToday (d now : SimpleDate) : Bool :=
  d.year == now.year && d.month == now.month && d.day == now.day

/-- An SOS request document; createdAt may be absent. -/
structure SOSRequest where
  id : String
  createdAt : Option SimpleDate := none
  emergencyType : Option String := none
  urgency : Option String := none
  description : Option String := none
  status : Option String := none
  city : Option String := none
  deriving DecidableEq

/-- Embedding of the todaysAlerts filter (src/unnamed/part_001, lines
179-185): alert.createdAt && isToday(alert.createdAt.toDate()) — requests
without a createdAt are excluded, the rest are kept exactly when their
createdAt date is today. -/
def todaysAlerts (reqs : List SOSRequest) (now : SimpleDate) : List SOSRequest :=
  reqs.filter (fun a =>
    match a.createdAt with
    | none => false
    | some d => isToday d now)

/-- C5: the Today's Active Alerts list contains exactly the SOS requests
whose createdAt date shares the current date's calendar year, month and day;
requests without a createdAt field are excluded. -/
theorem todaysAlerts_exactly_today (reqs : List SOSRequest) (now : SimpleDate) :
    ∀ a, a ∈ todaysAlerts reqs now ↔
      (a ∈ reqs ∧ ∃ d, a.createdAt = some d ∧
        d.year = now.year ∧ d.month = now.month ∧ d.day = now.day) := by
  intro a
  constructor
  · intro ha
    obtain ⟨hmem, hcond⟩ := List.mem_filter.mp ha
    refine ⟨hmem, ?_⟩
    cases hca : a.createdAt with
    | none => rw [hca] at hcond; exact absurd hcond (by simp)
    | some d =>
      rw [hca] at hcond
      simp only [isToday, Bool.and_eq_true, beq_iff_eq] at hcond
      exact ⟨d, rfl, hcond.1.1, hcond.1.2, hcond.2⟩
  · intro ⟨hmem, d, hca, hy, hm, hd⟩
    apply List.mem_filter.mpr
    refine ⟨hmem, ?_⟩
    rw [hca]
    simp [isToday, hy, hm, hd]

/-! ### Profile screen: notifications toggle and blocked users
(src/app/(tabs)/profile.tsx, lines 520-544 and 613-679) -/

/-- Embedding of handleToggleNotifications (profile.tsx, lines 520-544):
the local state is optimistically set to value; when a user is signed in the
backend write runs, and on write failure the state is set to the negation of
value and an error alert is shown.  Returns (final notifications state,
error alert shown). -/
def handleToggleNotifications (value : Bool) (hasUser : Bool)
    (writeFails : Bool) : Bool × Bool :=
  if hasUser then
    if writeFails then (!value, true) else (value, false)
  else (value, false)

/-- The Switch wiring (profile.tsx, lines 820-822): the Switch renders
value={notifications} and calls the handler with the toggled value, so the
handler always receives the negation of the current state. -/
def toggleFromSwitch (prev : Bool) (hasUser : Bool) (writeFails : Bool) :
    Bool × Bool :=
  handleToggleNotifications (!prev) hasUser writeFails

/-- The modal alert shown by a block/unblock interaction, if any. -/
inductive BlockAlert
  | noAlert
  | invalidEmail
  | alreadyBlocked
  | blockedOk
  | blockFailed
  | notBlocked
  | unblockedOk
  | unblockFailed
  deriving DecidableEq

/-- A character in the regex class [^\s@]: not whitespace and not an at
sign. -/
def emailChar (c : Char) : Bool :=
  !c.isWhitespace && !(c == '@')

/-- Splits a character list at its first at sign, dropping the sign;
none when no at sign occurs. -/
def splitAtSign : List Char → Option (List Char × List Char)
  | [] => none
  | c :: cs =>
    if c == '@' then some ([], cs)
    else
      match splitAtSign cs with
      | none => none
      | some (l, r) => some (c :: l, r)

/-- Embedding of the email validation regex of the Block User flow
(profile.tsx, line 623): /^[^\s@]+@[^\s@]+\.[^\s@]+$/ — one or more
non-whitespace non-at characters, an at sign, one or more non-whitespace
non-at characters, a dot, one or more non-whitespace non-at characters.
Equivalently: the string has an at sign whose left part is nonempty and in
the class, whose right part is in the class (hence holds no further at
sign), and whose right part holds a dot that is neither its first nor its
last character. -/
def validEmail (email : String) : Bool :=
  match splitAtSign email.toList with
  | none => false
  | some (l, d) =>
    !l.isEmpty && l.all emailChar && d.all emailChar &&
      ((d.drop 1).dropLast.contains ('.'))

/-- Embedding of the Block User flow (profile.tsx, lines 619-646): an empty
input is ignored; an input failing the email regex alerts Invalid Email; an
email already in the list alerts Already Blocked; otherwise the list is
optimistically set to blocked ++ [email], and when a user is signed in the
backend write runs — on failure the list is reverted to the captured prior
value and an error alert is shown.  Returns (final list, alert shown). -/
def blockUser (blocked : List String) (email : String) (hasUser : Bool)
    (writeFails : Bool) : List String × BlockAlert :=
  if email = "" then (blocked, BlockAlert.noAlert)
  else if !validEmail email then (blocked, BlockAlert.invalidEmail)
  else if blocked.contains email then (blocked, BlockAlert.alreadyBlocked)
  else if hasUser then
    if writeFails then (blocked, BlockAlert.blockFailed)
    else (blocked ++ [email], BlockAlert.blockedOk)
  else (blocked ++ [email], BlockAlert.noAlert)

/-- Embedding of the Unblock User flow (profile.tsx, lines 653-676): an
empty input is ignored; an email not in the list alerts Not Blocked;
otherwise the list is optimistically set to the list with every occurrence
of the email filtered out, and when a user is signed in the backend write
runs — on failure the list is reverted to the captured prior value and an
error alert is shown.  Returns (final list, alert shown). -/
def unblockUser (blocked : List String) (email : String) (hasUser : Bool)
    (writeFails : Bool) : List String × BlockAlert :=
  if email = "" then (blocked, BlockAlert.noAlert)
  else if !blocked.contains email then (blocked, BlockAlert.notBlocked)
  else if hasUser then
    if writeFails then (blocked, BlockAlert.unblockFailed)
    else (blocked.filter (fun u => u != email), BlockAlert.unblockedOk)
  else (blocked.filter (fun u => u != email), BlockAlert.noAlert)

theorem validEmail_ne_empty (email : String) (h : validEmail email = true) :
    email ≠ "" := by
  intro he
  rw [he] at h
  exact absurd h (by decide)

/-- The list blockUser produces is either the previous list or, when the
email was absent, the previous list with the email appended. -/
theorem blockUser_fst_cases (b : List String) (e : String) (hu wf : Bool) :
    (blockUser b e hu wf).1 = b ∨
      ((blockUser b e hu wf).1 = b ++ [e] ∧ e ∉ b) := by
  unfold blockUser
  split
  · exact Or.inl rfl
  · split
    · exact Or.inl rfl
    · split
      next hc => exact Or.inl rfl
      next hc =>
        have hnm : e ∉ b := by
          simpa [List.contains, List.elem_eq_mem] using hc
        split
        · split
          · exact Or.inl rfl
          · exact Or.inr ⟨rfl, hnm⟩
        · exact Or.inr ⟨rfl, hnm⟩

/-- The list unblockUser produces is either the previous list or the
previous list with every occurrence of the email filtered out. -/
theorem unblockUser_fst_cases (b : List String) (e : String) (hu wf : Bool) :
    (unblockUser b e hu wf).1 = b ∨
      (unblockUser b e hu wf).1 = b.filter (fun u => u != e) := by
  unfold unblockUser
  split
  · exact Or.inl rfl
  · split
    · exact Or.inl rfl
    · split
      · split
        · exact Or.inl rfl
        · exact Or.inr rfl
      · exact Or.inr rfl

/-- C1: every optimistic update whose backend write fails is rolled back to
the state from before the update, with an error alert surfaced: the
notifications toggle returns to the previous value, and a failed block or
unblock leaves the blocked list exactly as it was. -/
theorem failed_writes_roll_back (prev : Bool) (blocked : List String)
    (email : String) :
    (toggleFromSwitch prev true true = (prev, true)) ∧
    (validEmail email = true → email ∉ blocked →
      blockUser blocked email true true = (blocked, BlockAlert.blockFailed)) ∧
    (email ∈ blocked → email ≠ "" →
      unblockUser blocked email true true = (blocked, BlockAlert.unblockFailed)) := by
  refine ⟨?_, ?_, ?_⟩
  · simp [toggleFromSwitch, handleToggleNotifications]
  · intro hv hnm
    have hne := validEmail_ne_empty email hv
    simp [blockUser, hne, hv, List.contains, List.elem_eq_mem, hnm]
  · intro hm hne
    simp [unblockUser, hne, List.contains, List.elem_eq_mem, hm]

theorem failed_writes_roll_back_witness :
    (validEmail ("a@b.c") = true ∧ "a@b.c" ∉ (["x@y.z"] : List String)) ∧
    blockUser ["x@y.z"] "a@b.c" true true = (["x@y.z"], BlockAlert.blockFailed) :=
  ⟨⟨by decide, by decide⟩,
    (failed_writes_roll_back true ["x@y.z"] "a@b.c").2.1 (by decide) (by decide)⟩

/-- C8 as stated is false: blocking an email that is not in the list does
not always append it — an input failing the email regex (and likewise a
blocked-list write that fails) leaves the list unchanged instead. -/
theorem block_always_appends_counterexample :
    ("bad" ∉ ([] : List String)) ∧ (blockUser [] "bad" true false).1 = [] ∧
    ("a@b.c" ∉ ([] : List String)) ∧ (blockUser [] "a@b.c" true true).1 = [] :=
  ⟨by decide, by decide, by decide, by decide⟩

/-- C8 amended: the blocked list stays duplicate-free under every block and
unblock operation; blocking leaves the list unchanged when the email is
already present (or invalid, or the write fails) and otherwise appends it
once; unblocking leaves an absent email's list unchanged and, when the write
does not fail, removes every occurrence of the email. -/
theorem blockUnblock_nodup (blocked : List String) (email : String)
    (hasUser writeFails : Bool) (h : blocked.Nodup) :
    (blockUser blocked email hasUser writeFails).1.Nodup ∧
    (unblockUser blocked email hasUser writeFails).1.Nodup ∧
    (email ∈ blocked → (blockUser blocked email hasUser writeFails).1 = blocked) ∧
    (validEmail email = true → email ∉ blocked →
      (hasUser = false ∨ writeFails = false) →
      (blockUser blocked email hasUser writeFails).1 = blocked ++ [email]) ∧
    (email ∉ blocked → (unblockUser blocked email hasUser writeFails).1 = blocked) ∧
    (email ∈ blocked → email ≠ "" → (hasUser = false ∨ writeFails = false) →
      email ∉ (unblockUser blocked email hasUser writeFails).1) := by
  have happ : email ∉ blocked → (blocked ++ [email]).Nodup := by
    intro hne
    simp [List.nodup_append, h, hne]
  refine ⟨?_, ?_, ?_, ?_, ?_, ?_⟩
  · rcases blockUser_fst_cases blocked email hasUser writeFails with hc | ⟨hc, hnm⟩
    · rw [hc]; exact h
    · rw [hc]; exact happ hnm
  · rcases unblockUser_fst_cases blocked email hasUser writeFails with hc | hc
    · rw [hc]; exact h
    · rw [hc]; exact h.filter _
  · intro hm
    rcases eq_or_ne email ("") with he | hne
    · simp [blockUser, he]
    · cases hv : validEmail email with
      | false => simp [blockUser, hne, hv]
      | true => simp [blockUser, hne, hv, List.contains, List.elem_eq_mem, hm]
  · intro hv hnm hok
    have hne := validEmail_ne_empty email hv
    cases hu : hasUser with
    | false => simp [blockUser, hne, hv, List.contains, List.elem_eq_mem, hnm]
    | true =>
      have hw : writeFails = false := by
        rcases hok with h1 | h1
        · rw [hu] at h1; cases h1
        · exact h1
      simp [blockUser, hne, hv, List.contains, List.elem_eq_mem, hnm, hw]
  · intro hnm
    rcases eq_or_ne email ("") with he | hne
    · simp [unblockUser, he]
    · simp [unblockUser, hne, List.contains, List.elem_eq_mem, hnm]
  · intro hm hne hok
    have hfilter : email ∉ blocked.filter (fun u => u != email) := by
      intro hmem
      have := (List.mem_filter.mp hmem).2
      simp at this
    cases hu : hasUser with
    | false =>
      simp only [unblockUser, hne, if_false]
      simp [List.contains, List.elem_eq_mem, hm, hfilter]
    | true =>
      have hw : writeFails = false := by
        rcases hok with h1 | h1
        · rw [hu] at h1; cases h1
        · exact h1
      simp only [unblockUser, hne, if_false]
      simp [List.contains, List.elem_eq_mem, hm, hw, hfilter]

theorem blockUnblock_nodup_witness :
    ((["a@b.c"] : List String).Nodup ∧ validEmail ("d@e.f") = true ∧
      "d@e.f" ∉ (["a@b.c"] : List String)) ∧
    (blockUser ["a@b.c"] "d@e.f" true false).1.Nodup ∧
    (blockUser ["a@b.c"] "d@e.f" true false).1 = ["a@b.c", "d@e.f"] :=
  ⟨⟨by decide, by decide, by decide⟩,
    (blockUnblock_nodup ["a@b.c"] "d@e.f" true false (by decide)).1,
    (blockUnblock_nodup ["a@b.c"] "d@e.f" true false (by decide)).2.2.2.1
      (by decide) (by decide) (Or.inr rfl)⟩

end Saviour
